import Mathlib

/-!
Shallow embedding of `xbob/db/gbu/models.py` (table models of the GBU
database) and proofs about its pure behaviour: client-id derivation from
signatures, the `Client`, `File` and `Annotation` constructors, and the
path-composition helpers `File.make_path` / `File.save`.
-/

namespace GBU

/-- The whitespace characters stripped by Python's `int(str)` conversion
(the same set `str.strip()` removes by default, restricted here to the
common ASCII ones). -/
def isPySpace (c : Char) : Bool :=
  c = ' ' || c = '\t' || c = '\n' || c = '\r' || c = '\x0b' || c = '\x0c'

/-- Numeric value of a list of decimal digit characters (most significant
first), as Python's `int` computes it for a pure digit string. -/
def digitsVal (l : List Char) : Nat :=
  l.foldl (fun a c => 10 * a + (c.toNat - 48)) 0

/-- Whitespace stripping done by Python's `int(str)` before parsing:
remove leading and trailing whitespace characters. -/
def pyTrim (l : List Char) : List Char :=
  ((l.dropWhile isPySpace).reverse.dropWhile isPySpace).reverse

/-- Python's `int(s)` for a string `s`, on the character list: strip
whitespace from both ends, then an optional sign followed by a non-empty
run of decimal digits; anything else raises `ValueError`, modelled as
`none`. -/
def pyIntOfChars (l : List Char) : Option Int :=
  match pyTrim l with
  | '-' :: ds => if ds ≠ [] ∧ ds.all Char.isDigit then some (-(digitsVal ds : Int)) else none
  | '+' :: ds => if ds ≠ [] ∧ ds.all Char.isDigit then some (digitsVal ds : Int) else none
  | ds => if ds ≠ [] ∧ ds.all Char.isDigit then some (digitsVal ds : Int) else none

/-- Python's `int(s)` on a Lean `String`. -/
def pyIntOfString (s : String) : Option Int :=
  pyIntOfChars s.data

/-- Python's slice `s[i:]`: characters of `s` from offset `i` on (empty
when `i` is at or past the end; slicing never raises). -/
def pySliceFrom (s : String) (i : Nat) : String :=
  ⟨s.data.drop i⟩

/-- Model of `client_id_from_signature(signature)` from `models.py`:
`return int(signature[4:])`.  `none` models the `ValueError` that
`int` raises on a malformed suffix. -/
def client_id_from_signature (signature : String) : Option Int :=
  pyIntOfString (pySliceFrom signature 4)

/-- A Python value as it occurs in the annotation lists: an integer or a
string (`int()` accepts both). -/
inductive PyVal
  | vint (n : Int)
  | vstr (s : String)
  deriving DecidableEq, Repr

/-- Python's `int(x)` on such a value: identity on integers, string
parsing on strings. -/
def pyInt : PyVal → Option Int
  | .vint n => some n
  | .vstr s => pyIntOfString s

/-- The `Client` ORM object: `__init__` sets `signature` then derives
`id` via `client_id_from_signature`. -/
structure Client where
  id : Int
  signature : String
  deriving DecidableEq, Repr

/-- Model of `Client.__init__(self, signature)`: stores the signature unchanged and
computes the integral id from it; a malformed signature makes the
derivation (hence construction) fail. -/
def Client.init (signature : String) : Option Client :=
  (client_id_from_signature signature).map fun i => { id := i, signature := signature }

/-- The attribute names mapped as columns on the `file` table in
`models.py`: `id`, `client_id`, `path`, `presentation`.  These are what
is persisted on a File row. -/
def fileColumns : List String :=
  ["id", "client_id", "path", "presentation"]

/-- Model of `File.__init__(self, presentation, signature, path)`: the instance
attributes it assigns, in source order, as `(name, value)` pairs:
`presentation`, `client_id` (derived from the signature), `path`, and
finally `signature` itself (a transient attribute, not a mapped column).
Fails (`None`) when the client-id derivation raises. -/
def File.init (presentation signature path : String) : Option (List (String × PyVal)) :=
  (client_id_from_signature signature).map fun cid =>
    [("presentation", .vstr presentation),
     ("client_id", .vint cid),
     ("path", .vstr path),
     ("signature", .vstr signature)]

/-- Look up an attribute on a constructed object's attribute list. -/
def attrGet (attrs : List (String × PyVal)) (name : String) : Option PyVal :=
  (attrs.find? fun p => p.1 = name).map Prod.snd

/-- Model of `posixpath.join` restricted to two components, as `os.path.join` is
used in `File.make_path`: an absolute second component discards the
first; otherwise the pieces are glued with exactly one `/` unless the
first is empty or already ends in `/`. -/
def osPathJoin (a b : String) : String :=
  if b.data.head? = some '/' then b
  else if a = "" || a.data.getLast? = some '/' then a ++ b
  else a ++ "/" ++ b

/-- Model of `File.make_path(self, directory=None, extension=None)`: falsy
(`None` or empty) arguments become `''`, then
`os.path.join(directory, self.path + extension)`. -/
def make_path (path : String) (directory extension : Option String) : String :=
  let dir := match directory with
    | none => ""
    | some d => if d = "" then "" else d
  let ext := match extension with
    | none => ""
    | some e => if e = "" then "" else e
  osPathJoin dir (path ++ ext)

/-- The mutable state of an `Annotation` object while `__init__` runs:
every field starts unset (`none`) and is assigned in source order. -/
structure AnnotationState where
  file_id : Option String := none
  re_x : Option Int := none
  re_y : Option Int := none
  le_x : Option Int := none
  le_y : Option Int := none
  deriving DecidableEq, Repr

/-- The two ways `Annotation.__init__` can raise: the `assert` on the
length of `eyes`, or a `ValueError` from one of the `int` coercions. -/
inductive InitError
  | assertionError
  | valueError
  deriving DecidableEq, Repr

/-- Model of `Annotation.__init__(self, presentation, eyes)`: assigns
`self.file_id = presentation`, asserts `len(eyes) == 4`, then assigns
`re_x, re_y, le_x, le_y` from `int(eyes[0]) .. int(eyes[3])` in that
order.  On failure the error carries the kind of exception together with
the fields already assigned at that point. -/
def AnnotationState.init (presentation : String) (eyes : List PyVal) :
    Except (InitError × AnnotationState) AnnotationState :=
  let s0 : AnnotationState := { file_id := some presentation }
  match eyes with
  | [e0, e1, e2, e3] =>
    match pyInt e0 with
    | none => .error (.valueError, s0)
    | some a =>
      let s1 := { s0 with re_x := some a }
      match pyInt e1 with
      | none => .error (.valueError, s1)
      | some b =>
        let s2 := { s1 with re_y := some b }
        match pyInt e2 with
        | none => .error (.valueError, s2)
        | some c =>
          let s3 := { s2 with le_x := some c }
          match pyInt e3 with
          | none => .error (.valueError, s3)
          | some d => .ok { s3 with le_y := some d }
  | _ => .error (.assertionError, s0)

/-- The names bound at module level in `models.py`, in source order:
`import os` binds `os`; each `from … import a, b` binds exactly the
imported names (never the package being imported from); then the
module-level assignment and the `def`/`class` statements. -/
def modelsModuleBindings : List String :=
  ["os",
   "Table", "Column", "Integer", "String", "ForeignKey", "or_", "and_",
   "Enum", "relationship",
   "backref",
   "declarative_base",
   "Base",
   "client_id_from_signature",
   "Client", "Annotation", "File",
   "subworld_file_association", "Subworld",
   "protocol_file_association", "Protocol"]

/-- The global (module-level) names the body of `File.save` dereferences:
`self.make_path(...)` and the parameters are local, but
`bob.utils.makedirs_safe`, `os.path.dirname` and `bob.io.save` look up
`bob` and `os` in the module namespace. -/
def saveGlobalRefs : List String :=
  ["bob", "os"]

/-- Model of `os.path.dirname(p)`: everything before the final `/`, with trailing
slashes of the head kept only when the head is all slashes; modelled as
CPython's `posixpath.dirname` (split at the last `/`; strip trailing
slashes from the head unless it is only slashes). -/
def osPathDirname (p : String) : String :=
  let l := p.data
  let i := (l.reverse.takeWhile (fun c => c ≠ '/')).length
  let head := l.take (l.length - i)
  if head ≠ [] ∧ ¬ head.all (fun c => c = '/')
  then ⟨head.reverse.dropWhile (fun c => c = '/') |>.reverse⟩
  else ⟨head⟩

/-- One externally visible effect of `File.save`: ensuring a directory
(and missing parents) exists, or serializing the data blob to a path. -/
inductive SaveEffect
  | makedirsSafe (dir : String)
  | ioSave (path : String)
  deriving DecidableEq, Repr

/-- The effect trace `File.save(self, data, directory=None,
extension='.hdf5')` would perform as its docstring and body intend:
compose the path with `make_path`, ensure its directory exists via
`bob.utils.makedirs_safe(os.path.dirname(path))`, then
`bob.io.save(data, path)`.  (The body as written dereferences the
unbound global `bob`; see `modelsModuleBindings`.) -/
def save_effects (path : String) (directory extension : Option String) :
    List SaveEffect :=
  let p := make_path path directory extension
  [.makedirsSafe (osPathDirname p), .ioSave p]

/-! ### Helper lemmas about digit strings and Python `int` parsing -/

lemma isPySpace_eq_false_of_isDigit (c : Char) (h : c.isDigit = true) :
    isPySpace c = false := by
  revert h
  unfold isPySpace Char.isDigit
  by_cases h1 : c = ' '
  · subst h1; decide
  by_cases h2 : c = '\t'
  · subst h2; decide
  by_cases h3 : c = '\n'
  · subst h3; decide
  by_cases h4 : c = '\r'
  · subst h4; decide
  by_cases h5 : c = '\x0b'
  · subst h5; decide
  by_cases h6 : c = '\x0c'
  · subst h6; decide
  simp [h1, h2, h3, h4, h5, h6]

lemma dropWhile_isPySpace_of_digits (l : List Char) (h : l.all Char.isDigit = true) :
    l.dropWhile isPySpace = l := by
  cases l with
  | nil => rfl
  | cons c rest =>
    have hc : c.isDigit = true := by
      simp only [List.all_cons, Bool.and_eq_true] at h
      exact h.1
    rw [List.dropWhile_cons, isPySpace_eq_false_of_isDigit c hc]
    simp

lemma pyTrim_digits (l : List Char) (h : l.all Char.isDigit = true) :
    pyTrim l = l := by
  unfold pyTrim
  rw [dropWhile_isPySpace_of_digits l h]
  have hr : l.reverse.all Char.isDigit = true := by
    simp only [List.all_eq_true] at h ⊢
    intro x hx
    exact h x (List.mem_reverse.mp hx)
  rw [dropWhile_isPySpace_of_digits l.reverse hr, List.reverse_reverse]

lemma pyIntOfChars_digits (l : List Char) (h1 : l ≠ []) (h2 : l.all Char.isDigit = true) :
    pyIntOfChars l = some ((digitsVal l : Nat) : Int) := by
  unfold pyIntOfChars
  rw [pyTrim_digits l h2]
  cases l with
  | nil => exact absurd rfl h1
  | cons c rest =>
    have hc : c.isDigit = true := by
      simp only [List.all_cons, Bool.and_eq_true] at h2
      exact h2.1
    have hminus : c ≠ '-' := by
      intro hcontra; rw [hcontra] at hc; exact absurd hc (by decide)
    have hplus : c ≠ '+' := by
      intro hcontra; rw [hcontra] at hc; exact absurd hc (by decide)
    split
    · next ds heq =>
      exact absurd (List.cons.injEq .. ▸ heq).1 hminus
    · next ds heq =>
      exact absurd (List.cons.injEq .. ▸ heq).1 hplus
    · next h3 h4 =>
      rw [if_pos ⟨List.cons_ne_nil c rest, h2⟩]

lemma pyTrim_dash (l : List Char) (h1 : l ≠ []) (h2 : l.all Char.isDigit = true) :
    pyTrim ('-' :: l) = '-' :: l := by
  unfold pyTrim
  have hstep : List.dropWhile isPySpace ('-' :: l) = '-' :: l := by
    rw [List.dropWhile_cons]
    simp [show isPySpace '-' = false from by decide]
  rw [hstep, List.reverse_cons]
  cases hl : l.reverse with
  | nil => exact absurd (List.reverse_eq_nil_iff.mp hl) h1
  | cons y ys =>
    have hy : y.isDigit = true := by
      have hmem : y ∈ l := List.mem_reverse.mp (hl ▸ List.mem_cons_self y ys)
      exact List.all_eq_true.mp h2 y hmem
    rw [List.cons_append, List.dropWhile_cons, isPySpace_eq_false_of_isDigit y hy]
    simp only [Bool.false_eq_true, if_false, ← List.cons_append, ← hl,
      List.reverse_append, List.reverse_reverse]
    rfl

lemma pyTrim_padded (l : List Char) (h1 : l ≠ []) (h2 : l.all Char.isDigit = true) :
    pyTrim (' ' :: (l ++ [' '])) = l := by
  unfold pyTrim
  have hstep : List.dropWhile isPySpace (' ' :: (l ++ [' '])) =
      List.dropWhile isPySpace (l ++ [' ']) := by
    rw [List.dropWhile_cons]
    simp [show isPySpace ' ' = true from by decide]
  rw [hstep]
  cases l with
  | nil => exact absurd rfl h1
  | cons c rest =>
    have hc : c.isDigit = true := by
      simp only [List.all_cons, Bool.and_eq_true] at h2
      exact h2.1
    have hrev : (c :: rest).reverse.all Char.isDigit = true := by
      simp only [List.all_eq_true] at h2 ⊢
      intro x hx
      exact h2 x (List.mem_reverse.mp hx)
    have hA : List.dropWhile isPySpace ((c :: rest) ++ [' ']) = (c :: rest) ++ [' '] := by
      rw [List.cons_append, List.dropWhile_cons, isPySpace_eq_false_of_isDigit c hc]
      simp
    rw [hA]
    have hB : ((c :: rest) ++ [' ']).reverse = ' ' :: (c :: rest).reverse := by
      simp
    rw [hB, List.dropWhile_cons]
    rw [show isPySpace ' ' = true from by decide]
    simp only [if_true]
    rw [dropWhile_isPySpace_of_digits (c :: rest).reverse hrev, List.reverse_reverse]

lemma pyIntOfChars_dash (l : List Char) (h1 : l ≠ []) (h2 : l.all Char.isDigit = true) :
    pyIntOfChars ('-' :: l) = some (-(digitsVal l : Int)) := by
  unfold pyIntOfChars
  rw [pyTrim_dash l h1 h2]
  split
  · next ds heq =>
    have hds : l = ds := ((List.cons.injEq ..).mp heq).2
    subst hds
    rw [if_pos ⟨h1, h2⟩]
  · next ds heq =>
    exact absurd ((List.cons.injEq ..).mp heq).1 (by decide)
  · next h3 h4 =>
    exact absurd rfl (h3 l)

/-- Characters of a signature past offset 4 when the signature is a
4-character tag followed by a suffix. -/
lemma drop4_tag_suffix (tag suffix : String) (htag : tag.length = 4) :
    (tag ++ suffix).data.drop 4 = suffix.data := by
  rw [String.data_append, ← htag]
  exact List.drop_left tag.data suffix.data

/-- C1. For signatures that are a 4-character tag followed by a non-empty
digit string `d`, `client_id_from_signature` returns the numeric value of
`d`; `Client` built from such a signature gets exactly that id and keeps
the signature unchanged; and the derived id never depends on the tag: any
two 4-character tags with the same suffix give the same id. -/
theorem client_id_from_signature_spec :
    (∀ tag d : String, tag.length = 4 → d.data ≠ [] → d.data.all Char.isDigit = true →
      client_id_from_signature (tag ++ d) = some ((digitsVal d.data : Nat) : Int) ∧
      Client.init (tag ++ d) = some { id := ((digitsVal d.data : Nat) : Int), signature := tag ++ d }) ∧
    (∀ tag1 tag2 s : String, tag1.length = 4 → tag2.length = 4 →
      client_id_from_signature (tag1 ++ s) = client_id_from_signature (tag2 ++ s)) := by
  constructor
  · intro tag d htag hne hdig
    have hval : client_id_from_signature (tag ++ d) = some ((digitsVal d.data : Nat) : Int) := by
      unfold client_id_from_signature pyIntOfString pySliceFrom
      rw [drop4_tag_suffix tag d htag]
      exact pyIntOfChars_digits d.data hne hdig
    refine ⟨hval, ?_⟩
    unfold Client.init
    rw [hval]
    rfl
  · intro tag1 tag2 s h1 h2
    unfold client_id_from_signature pyIntOfString pySliceFrom
    rw [drop4_tag_suffix tag1 s h1, drop4_tag_suffix tag2 s h2]

/-- Witness for C1 at the concrete signature `"nd1S" ++ "0001"`. -/
theorem client_id_from_signature_spec_witness :
    client_id_from_signature ("nd1S" ++ "0001") = some 1 ∧
    Client.init ("nd1S" ++ "0001") = some { id := 1, signature := "nd1S0001" } ∧
    client_id_from_signature ("abcd" ++ "42") = client_id_from_signature ("nd1S" ++ "42") := by
  have h := client_id_from_signature_spec.1 "nd1S" "0001" (by decide) (by decide) (by decide)
  refine ⟨?_, ?_, client_id_from_signature_spec.2 "abcd" "nd1S" "42" (by decide) (by decide)⟩
  · rw [h.1]; decide
  · rw [h.2]; decide

/-- C2. `File.__init__` derives `client_id` from the signature argument
via `client_id_from_signature`; concretely, signature `"nd1S0001"` gives
`client_id = 1` and `"nd1S1234"` gives `client_id = 1234`. -/
theorem File_init_client_id :
    (∀ p s pa attrs, File.init p s pa = some attrs →
      attrGet attrs "client_id" = (client_id_from_signature s).map PyVal.vint) ∧
    attrGet ((File.init "pres" "nd1S0001" "path1").getD []) "client_id" = some (.vint 1) ∧
    attrGet ((File.init "pres" "nd1S1234" "path2").getD []) "client_id" = some (.vint 1234) := by
  refine ⟨?_, by decide, by decide⟩
  intro p s pa attrs h
  unfold File.init at h
  cases hc : client_id_from_signature s with
  | none => rw [hc] at h; simp at h
  | some cid =>
    rw [hc] at h
    simp only [Option.map_some', Option.some.injEq] at h
    subst h
    rfl

/-- Witness for C2 at a concrete construction. -/
theorem File_init_client_id_witness :
    attrGet ((File.init "nd2S0001" "nd1S0001" "p").getD []) "client_id" =
      (client_id_from_signature "nd1S0001").map PyVal.vint :=
  File_init_client_id.1 "nd2S0001" "nd1S0001" "p"
    [("presentation", .vstr "nd2S0001"), ("client_id", .vint 1),
     ("path", .vstr "p"), ("signature", .vstr "nd1S0001")] (by decide)

/-- C5. Signatures shorter than 5 characters make the id derivation fail,
and with it `Client` and `File` construction, at construction time. -/
theorem short_signature_fails :
    ∀ s : String, s.length < 5 →
      client_id_from_signature s = none ∧
      Client.init s = none ∧
      ∀ p pa : String, File.init p s pa = none := by
  intro s hs
  have hdrop : s.data.drop 4 = [] := by
    apply List.drop_eq_nil_of_le
    have : s.data.length = s.length := rfl
    omega
  have hnone : client_id_from_signature s = none := by
    unfold client_id_from_signature pyIntOfString pySliceFrom
    rw [hdrop]
    rfl
  refine ⟨hnone, ?_, ?_⟩
  · unfold Client.init; rw [hnone]; rfl
  · intro p pa; unfold File.init; rw [hnone]; rfl

/-- Witness for C5 at the 3-character signature `"abc"`. -/
theorem short_signature_fails_witness :
    client_id_from_signature "abc" = none ∧
    Client.init "abc" = none ∧
    ∀ p pa : String, File.init p "abc" pa = none :=
  short_signature_fails "abc" (by decide)

/-- C3 counterexample. For an absolute stored path the second claimed
example fails: `make_path` with `directory = "/a/b"` and
`extension = ".hdf5"` on the stored path `"/abs/p"` returns
`"/abs/p.hdf5"`, while the claim predicts `"/a/b/" + path + ".hdf5"`,
i.e. `"/a/b//abs/p.hdf5"`; the two strings differ. -/
theorem make_path_abs_cex :
    make_path "/abs/p" (some "/a/b") (some ".hdf5") = "/abs/p.hdf5" ∧
    ("/a/b/" ++ "/abs/p" ++ ".hdf5" : String) = "/a/b//abs/p.hdf5" ∧
    (("/abs/p.hdf5" : String) == "/a/b//abs/p.hdf5") = false := by
  decide

/-- C3 amended. `make_path` returns
`join(directory or "", path + (extension or ""))`; with no arguments it
returns the stored path unchanged; and for every stored path that is not
absolute, `make_path("/a/b", ".hdf5")` is `"/a/b/" + path + ".hdf5"`
with exactly one separator inserted. -/
theorem make_path_spec :
    (∀ (p : String) (d e : Option String),
      make_path p d e = osPathJoin (d.getD "") (p ++ e.getD "")) ∧
    (∀ p : String, make_path p none none = p) ∧
    (∀ p : String, p.data.head? ≠ some '/' →
      make_path p (some "/a/b") (some ".hdf5") = "/a/b/" ++ p ++ ".hdf5") := by
  have hnorm : ∀ o : Option String,
      (match o with
        | none => ""
        | some x => if x = "" then "" else x) = o.getD "" := by
    intro o
    cases o with
    | none => rfl
    | some x =>
      by_cases hx : x = ""
      · simp [hx, Option.getD]
      · simp [hx, Option.getD]
  have hmain : ∀ (p : String) (d e : Option String),
      make_path p d e = osPathJoin (d.getD "") (p ++ e.getD "") := by
    intro p d e
    unfold make_path
    rw [hnorm d, hnorm e]
  refine ⟨hmain, ?_, ?_⟩
  · intro p
    rw [hmain p none none]
    show osPathJoin "" (p ++ "") = p
    rw [String.append_empty]
    unfold osPathJoin
    by_cases hp : p.data.head? = some '/'
    · rw [if_pos hp]
    · rw [if_neg hp]
      simp [String.empty_append]
  · intro p hp
    rw [hmain p (some "/a/b") (some ".hdf5")]
    show osPathJoin "/a/b" (p ++ ".hdf5") = "/a/b/" ++ p ++ ".hdf5"
    unfold osPathJoin
    have hhead : (p ++ ".hdf5").data.head? ≠ some '/' := by
      rw [String.data_append]
      cases hd : p.data with
      | nil => decide
      | cons c rest =>
        rw [hd] at hp
        simpa using hp
    rw [if_neg hhead, if_neg (by decide)]
    rw [show ("/a/b" : String) ++ "/" = "/a/b/" from by decide, String.append_assoc]

/-- Witness for C3 (amended) at the relative stored path `"x/y.jpg"`. -/
theorem make_path_spec_witness :
    make_path "x/y.jpg" (some "/a/b") none =
      osPathJoin ((some "/a/b" : Option String).getD "")
        ("x/y.jpg" ++ (none : Option String).getD "") ∧
    make_path "x/y.jpg" none none = "x/y.jpg" ∧
    make_path "x/y.jpg" (some "/a/b") (some ".hdf5") = "/a/b/" ++ "x/y.jpg" ++ ".hdf5" :=
  ⟨make_path_spec.1 "x/y.jpg" (some "/a/b") none,
   make_path_spec.2.1 "x/y.jpg",
   make_path_spec.2.2 "x/y.jpg" (by decide)⟩

/-- C9. When the stored path is absolute (starts with the separator),
`make_path` returns `path + extension` and ignores the directory
argument, whatever non-empty directory is passed. -/
theorem make_path_absolute_path :
    ∀ (p d : String) (e : Option String), p.data.head? = some '/' → d ≠ "" →
      make_path p (some d) e = p ++ e.getD "" := by
  intro p d e hp _
  unfold make_path
  have hd : (match some d with
      | none => ""
      | some x => if x = "" then "" else x) = d ∨
      (match some d with
      | none => ""
      | some x => if x = "" then "" else x) = "" := by
    by_cases hx : d = ""
    · right; simp [hx]
    · left; simp [hx]
  have hext : ∀ o : Option String,
      (match o with
        | none => ""
        | some x => if x = "" then "" else x) = o.getD "" := by
    intro o
    cases o with
    | none => rfl
    | some x =>
      by_cases hx : x = ""
      · simp [hx, Option.getD]
      · simp [hx, Option.getD]
  rw [hext e]
  have hhead : (p ++ e.getD "").data.head? = some '/' := by
    rw [String.data_append]
    cases hd' : p.data with
    | nil => rw [hd'] at hp; simp at hp
    | cons c rest =>
      rw [hd'] at hp
      simpa using hp
  cases hd with
  | inl h => rw [h]; unfold osPathJoin; rw [if_pos hhead]
  | inr h => rw [h]; unfold osPathJoin; rw [if_pos hhead]

/-- Witness for C9 at the absolute stored path `"/abs/p"`. -/
theorem make_path_absolute_path_witness :
    make_path "/abs/p" (some "/a/b") (some ".hdf5") =
      "/abs/p" ++ (some ".hdf5" : Option String).getD "" :=
  make_path_absolute_path "/abs/p" "/a/b" (some ".hdf5") (by decide) (by decide)

lemma pyIntOfChars_congr (l m : List Char) (h : pyTrim l = pyTrim m) :
    pyIntOfChars l = pyIntOfChars m := by
  unfold pyIntOfChars
  rw [h]

/-- C8. The id derivation is more lenient than pure digit suffixes:
`"nd1S-12"` parses to `-12`, and in general a 4-character tag followed by
a minus sign and digits yields the negative value, while a
whitespace-padded digit suffix yields the padded number. -/
theorem client_id_from_signature_lenient :
    client_id_from_signature "nd1S-12" = some (-12) ∧
    (∀ tag d : String, tag.length = 4 → d.data ≠ [] → d.data.all Char.isDigit = true →
      client_id_from_signature (tag ++ ("-" ++ d)) = some (-(digitsVal d.data : Int)) ∧
      client_id_from_signature (tag ++ (" " ++ d ++ " ")) = some ((digitsVal d.data : Nat) : Int)) := by
  refine ⟨by decide, ?_⟩
  intro tag d htag hne hdig
  constructor
  · unfold client_id_from_signature pyIntOfString pySliceFrom
    rw [drop4_tag_suffix tag ("-" ++ d) htag]
    have hdata : ("-" ++ d).data = '-' :: d.data := by
      rw [String.data_append]
      rfl
    rw [hdata]
    exact pyIntOfChars_dash d.data hne hdig
  · unfold client_id_from_signature pyIntOfString pySliceFrom
    rw [drop4_tag_suffix tag (" " ++ d ++ " ") htag]
    have hdata : (" " ++ d ++ " ").data = ' ' :: (d.data ++ [' ']) := by
      rw [String.data_append, String.data_append]
      rfl
    rw [hdata]
    rw [pyIntOfChars_congr (' ' :: (d.data ++ [' '])) d.data
      (by rw [pyTrim_padded d.data hne hdig, pyTrim_digits d.data hdig])]
    exact pyIntOfChars_digits d.data hne hdig

/-- Witness for C8 at tag `"nd1S"` and digits `"12"`. -/
theorem client_id_from_signature_lenient_witness :
    client_id_from_signature ("nd1S" ++ ("-" ++ "12")) = some (-12) ∧
    client_id_from_signature ("nd1S" ++ (" " ++ "12" ++ " ")) = some 12 := by
  have h := client_id_from_signature_lenient.2 "nd1S" "12" (by decide) (by decide) (by decide)
  refine ⟨?_, ?_⟩
  · rw [h.1]; decide
  · rw [h.2]; decide

/-- C4. The constructor's `assert` fires exactly when `eyes` does not
have length 4; on a length-4 sequence whose entries all coerce, the
fields are assigned in order `re_x, re_y, le_x, le_y` from
`int(eyes[0]) .. int(eyes[3])`. -/
theorem annotation_init_arity :
    ∀ (pres : String) (eyes : List PyVal),
      ((∃ st, AnnotationState.init pres eyes = .error (.assertionError, st)) ↔
        eyes.length ≠ 4) ∧
      (∀ a b c d : PyVal, eyes = [a, b, c, d] →
        ∀ va vb vc vd : Int,
          pyInt a = some va → pyInt b = some vb → pyInt c = some vc → pyInt d = some vd →
          AnnotationState.init pres eyes =
            .ok { file_id := some pres, re_x := some va, re_y := some vb,
                  le_x := some vc, le_y := some vd }) := by
  intro pres eyes
  constructor
  · rcases eyes with _ | ⟨a, _ | ⟨b, _ | ⟨c, _ | ⟨d, _ | ⟨e, rest⟩⟩⟩⟩⟩
    · exact ⟨fun _ => by simp, fun _ => ⟨_, rfl⟩⟩
    · exact ⟨fun _ => by simp, fun _ => ⟨_, rfl⟩⟩
    · exact ⟨fun _ => by simp, fun _ => ⟨_, rfl⟩⟩
    · exact ⟨fun _ => by simp, fun _ => ⟨_, rfl⟩⟩
    · constructor
      · rintro ⟨st, h⟩
        exfalso
        rcases ha : pyInt a with _ | va <;>
        rcases hb : pyInt b with _ | vb <;>
        rcases hc : pyInt c with _ | vc <;>
        rcases hd : pyInt d with _ | vd <;>
        simp [AnnotationState.init, ha, hb, hc, hd] at h
      · intro h
        exact absurd (by simp) h
    · exact ⟨fun _ => by simp, fun _ => ⟨_, rfl⟩⟩
  · intro a b c d heq va vb vc vd ha hb hc hd
    subst heq
    simp [AnnotationState.init, ha, hb, hc, hd]

/-- Witness for C4: a successful length-4 construction and an assertion
failure on a length-1 sequence. -/
theorem annotation_init_arity_witness :
    AnnotationState.init "nd2S0001" [.vint 10, .vint 20, .vint 30, .vint 40] =
      .ok { file_id := some "nd2S0001", re_x := some 10, re_y := some 20,
            le_x := some 30, le_y := some 40 } ∧
    (∃ st, AnnotationState.init "nd2S0001" [.vint 1] = .error (.assertionError, st)) :=
  ⟨(annotation_init_arity "nd2S0001" [.vint 10, .vint 20, .vint 30, .vint 40]).2
      (.vint 10) (.vint 20) (.vint 30) (.vint 40) rfl 10 20 30 40 rfl rfl rfl rfl,
   (annotation_init_arity "nd2S0001" [.vint 1]).1.mpr (by decide)⟩

/-- C10. A length-4 sequence with a non-coercible entry makes the
constructor raise a `ValueError` instead of storing the value, and every
failure of the constructor, arity or coercion alike, happens after
`file_id` has already been assigned from the first argument. -/
theorem annotation_init_not_atomic :
    ∀ (pres : String) (eyes : List PyVal),
      (∀ k st, AnnotationState.init pres eyes = .error (k, st) → st.file_id = some pres) ∧
      (eyes.length = 4 → (∃ e ∈ eyes, pyInt e = none) →
        ∃ st, AnnotationState.init pres eyes = .error (.valueError, st) ∧
          st.file_id = some pres) := by
  intro pres eyes
  rcases eyes with _ | ⟨a, _ | ⟨b, _ | ⟨c, _ | ⟨d, _ | ⟨e, rest⟩⟩⟩⟩⟩
  · exact ⟨fun k st h => by
      simp [AnnotationState.init, Prod.ext_iff] at h
      rw [← h.2], fun h => by simp at h⟩
  · exact ⟨fun k st h => by
      simp [AnnotationState.init, Prod.ext_iff] at h
      rw [← h.2], fun h => by simp at h⟩
  · exact ⟨fun k st h => by
      simp [AnnotationState.init, Prod.ext_iff] at h
      rw [← h.2], fun h => by simp at h⟩
  · exact ⟨fun k st h => by
      simp [AnnotationState.init, Prod.ext_iff] at h
      rw [← h.2], fun h => by simp at h⟩
  · constructor
    · intro k st h
      rcases ha : pyInt a with _ | va <;>
      rcases hb : pyInt b with _ | vb <;>
      rcases hc : pyInt c with _ | vc <;>
      rcases hd : pyInt d with _ | vd <;>
      simp [AnnotationState.init, ha, hb, hc, hd, Prod.ext_iff] at h <;>
      rw [← h.2]
    · intro _ hex
      obtain ⟨e, he, hnone⟩ := hex
      rcases ha : pyInt a with _ | va
      · exact ⟨{ file_id := some pres },
          by simp [AnnotationState.init, ha], rfl⟩
      rcases hb : pyInt b with _ | vb
      · exact ⟨{ file_id := some pres, re_x := some va },
          by simp [AnnotationState.init, ha, hb], rfl⟩
      rcases hc : pyInt c with _ | vc
      · exact ⟨{ file_id := some pres, re_x := some va, re_y := some vb },
          by simp [AnnotationState.init, ha, hb, hc], rfl⟩
      rcases hd : pyInt d with _ | vd
      · exact ⟨{ file_id := some pres, re_x := some va, re_y := some vb, le_x := some vc },
          by simp [AnnotationState.init, ha, hb, hc, hd], rfl⟩
      · exfalso
        simp only [List.mem_cons, List.not_mem_nil, or_false] at he
        rcases he with rfl | rfl | rfl | rfl
        · rw [ha] at hnone; cases hnone
        · rw [hb] at hnone; cases hnone
        · rw [hc] at hnone; cases hnone
        · rw [hd] at hnone; cases hnone
  · exact ⟨fun k st h => by
      simp [AnnotationState.init, Prod.ext_iff] at h
      rw [← h.2], fun h => absurd h (by simp)⟩

/-- Witness for C10: a bad third entry raises `ValueError` with `file_id`
already set, and an arity failure also leaves `file_id` set. -/
theorem annotation_init_not_atomic_witness :
    (∃ st, AnnotationState.init "nd2S0001" [.vint 1, .vint 2, .vstr "bad", .vint 4] =
      .error (.valueError, st) ∧ st.file_id = some "nd2S0001") ∧
    ({ file_id := some "nd2S0001" } : AnnotationState).file_id = some "nd2S0001" :=
  ⟨(annotation_init_not_atomic "nd2S0001" [.vint 1, .vint 2, .vstr "bad", .vint 4]).2
      (by decide) ⟨.vstr "bad", by decide, by decide⟩,
   (annotation_init_not_atomic "nd2S0001" [.vint 1]).1 .assertionError
      { file_id := some "nd2S0001" } (by rfl)⟩

/-- C6 counterexample. The constructor body ends with
`self.signature = signature`, so the constructed File object does keep a
`signature` attribute equal to the argument: at a concrete construction
the assigned attribute names are `presentation, client_id, path,
signature`, not only the first three. -/
theorem File_init_signature_kept_cex :
    attrGet ((File.init "nd2S0001" "nd1S0001" "p").getD []) "signature" =
      some (.vstr "nd1S0001") ∧
    ((File.init "nd2S0001" "nd1S0001" "p").getD []).map Prod.fst =
      ["presentation", "client_id", "path", "signature"] ∧
    ((((File.init "nd2S0001" "nd1S0001" "p").getD []).map Prod.fst) ==
      ["presentation", "client_id", "path"]) = false := by
  decide

/-- C6 amended. Construction assigns exactly `presentation`, `client_id`
(computed from the signature), `path` and a transient `signature`
attribute; only `id`, `client_id`, `path` and `presentation` are mapped
columns, so the signature is not persisted on the File row even though
the constructor keeps it on the object. -/
theorem File_init_attrs_and_columns :
    (fileColumns.contains "signature") = false ∧
    (fileColumns.contains "client_id") = true ∧
    (∀ p s pa attrs, File.init p s pa = some attrs →
      attrs.map Prod.fst = ["presentation", "client_id", "path", "signature"] ∧
      attrGet attrs "client_id" = (client_id_from_signature s).map PyVal.vint) := by
  refine ⟨by decide, by decide, ?_⟩
  intro p s pa attrs h
  unfold File.init at h
  cases hc : client_id_from_signature s with
  | none => rw [hc] at h; simp at h
  | some cid =>
    rw [hc] at h
    simp only [Option.map_some', Option.some.injEq] at h
    subst h
    exact ⟨rfl, rfl⟩

/-- Witness for C6 (amended) at a concrete construction. -/
theorem File_init_attrs_and_columns_witness :
    ((File.init "nd2S0001" "nd1S0001" "p").getD []).map Prod.fst =
      ["presentation", "client_id", "path", "signature"] ∧
    attrGet ((File.init "nd2S0001" "nd1S0001" "p").getD []) "client_id" =
      (client_id_from_signature "nd1S0001").map PyVal.vint :=
  File_init_attrs_and_columns.2.2 "nd2S0001" "nd1S0001" "p"
    [("presentation", .vstr "nd2S0001"), ("client_id", .vint 1),
     ("path", .vstr "p"), ("signature", .vstr "nd1S0001")] (by decide)

/-- C7. `File.save` composes its target exactly as
`make_path(directory, extension)` and intends to ensure the directory
exists and serialize the data there; but its body dereferences the
module-level name `bob` (`bob.utils.makedirs_safe`, `bob.io.save`) and
`models.py` binds `os` yet never binds `bob` (a `from bob.… import`
does not bind the package name), so every call raises a `NameError`
before any I/O happens. -/
theorem File_save_unbound_global :
    (∀ (p : String) (d e : Option String),
      save_effects p d e =
        [.makedirsSafe (osPathDirname (make_path p d e)), .ioSave (make_path p d e)]) ∧
    (saveGlobalRefs.contains "bob") = true ∧
    (modelsModuleBindings.contains "bob") = false ∧
    (modelsModuleBindings.contains "os") = true ∧
    save_effects "x/y.jpg" (some "/a/b") (some ".hdf5") =
      [.makedirsSafe "/a/b/x", .ioSave "/a/b/x/y.jpg.hdf5"] :=
  ⟨fun _ _ _ => rfl, by decide, by decide, by decide, by decide⟩

end GBU
